import Mathlib

set_option maxRecDepth 1000000

/-!
Verification development for the ShadowCircuit onion-routing client.

The Rust sources are shallowly embedded: pure functions become Lean
functions, stateful code becomes explicit state passing, machine integers
become Nat with explicit reduction modulo 2 ^ w where overflow matters, and
fallible code returns Except.  I/O (TCP connects, reads, writes, random
number generation) is supplied through explicit oracle parameters.

External crates (ring AES-256-GCM, x25519-dalek, hkdf/sha2) are not part of
the repository; they are modelled by executable stand-in functions that
preserve the structural contract the source relies on (determinism, output
lengths, involutive stream cipher, tamper-detecting tag).  Every such model
is marked in its doc comment.
-/

deriving instance DecidableEq for Except

namespace ShadowCircuit

/-- Byte lists folded to a natural number, big-endian (injective on lists of
a fixed length whose entries are bytes). -/
def foldBytes (l : List Nat) : Nat :=
  l.foldl (fun a b => a * 256 + b) 0

/-- Big-endian encoding of a natural number into exactly `k` bytes
(the truncation to `k` bytes models fixed-width buffers). -/
def natToBytesBE : Nat → Nat → List Nat
  | 0, _ => []
  | k + 1, n => natToBytesBE k (n / 256) ++ [n % 256]

/-!
Executable models of the Rust standard string functions the source uses
(`trim`, `starts_with`, `split_whitespace`, `parse`, decimal formatting).
They are written by structural recursion over the character list so that
concrete witnesses evaluate inside the kernel.
-/

/-- Model of Rust `str::trim`: strip leading and trailing whitespace. -/
def strTrim (s : String) : String :=
  String.mk (((s.toList.dropWhile Char.isWhitespace).reverse.dropWhile
    Char.isWhitespace).reverse)

/-- Character-list comparison underlying `strStartsWith`. -/
def leadsWith : List Char → List Char → Bool
  | [], _ => true
  | _ :: _, [] => false
  | p :: ps, c :: cs => p = c && leadsWith ps cs

/-- Model of Rust `str::starts_with`. -/
def strStartsWith (s pre : String) : Bool :=
  leadsWith pre.toList s.toList

/-- Model of Rust `str::parse::<uN>` digit recognition: all characters are
decimal digits and the string is non-empty. -/
def strToNatQ (s : String) : Option Nat :=
  let cs := s.toList
  if cs ≠ [] ∧ cs.all Char.isDigit then
    some (cs.foldl (fun a c => a * 10 + (c.toNat - 48)) 0)
  else none

/-- Drop the first `k` characters of a string (Rust slicing of an ASCII
token). -/
def strDrop (s : String) (k : Nat) : String :=
  String.mk (s.toList.drop k)

/-- Split a character list at a separator character (model of Rust
`str::split('.')`); every separator produces a token boundary. -/
def splitCharAux (sep : Char) : List Char → List Char → List String
  | [], acc => [String.mk acc.reverse]
  | c :: cs, acc =>
      if c = sep then String.mk acc.reverse :: splitCharAux sep cs []
      else splitCharAux sep cs (c :: acc)

/-- Split a string at a separator character. -/
def splitChar (s : String) (sep : Char) : List String :=
  splitCharAux sep s.toList []

/-- Decimal digit character. -/
def digitChar (n : Nat) : Char :=
  "0123456789".toList.getD n '0'

/-- Fuel-driven accumulator loop of `natRepr`. -/
def natReprAux : Nat → Nat → List Char → List Char
  | 0, _, acc => acc
  | fuel + 1, n, acc =>
      if n < 10 then digitChar n :: acc
      else natReprAux fuel (n / 10) (digitChar (n % 10) :: acc)

/-- Model of Rust decimal formatting of an unsigned integer. -/
def natRepr (n : Nat) : String :=
  String.mk (natReprAux (n + 1) n [])

/-- Join strings with a separator (model of the `format!` joins). -/
def joinSep (sep : String) : List String → String
  | [] => ""
  | [x] => x
  | x :: xs => x ++ sep ++ joinSep sep xs

namespace Crypto

/-- Error type of src/crypto/mod.rs (`CryptoError`). -/
inductive CryptoError where
  | RingError : CryptoError
  | NtorError (msg : String) : CryptoError
deriving DecidableEq, Repr

/-- Source `generate_nonce` (src/crypto/mod.rs lines 27-31): a 12-byte nonce
whose first four bytes are zero and whose last eight bytes are the big-endian
encoding of the 64-bit counter. -/
def generate_nonce (nonce : Nat) : List Nat :=
  [0, 0, 0, 0] ++ natToBytesBE 8 nonce

/-- Prime modulus of the stand-in polynomial authentication tag. -/
abbrev macMod : Nat := 65537

/-- Polynomial authenticator over the ciphertext bytes:
`polyMac r [c0, c1, ...] = r * c0 + r ^ 2 * c1 + ... (mod 65537)`.
Part of the model of the external ring AES-256-GCM AEAD. -/
def polyMac (r : Nat) : List Nat → Nat
  | [] => 0
  | c :: cs => (r * (c + polyMac r cs)) % macMod

/-- Multiplier of the polynomial authenticator, derived from key and nonce
and always non-zero modulo `macMod`. -/
def macR (key nonce : List Nat) : Nat :=
  foldBytes (key ++ nonce) % (macMod - 1) + 1

/-- Keystream byte `i` of the stand-in stream cipher for a key and nonce.
Part of the model of the external ring AES-256-GCM AEAD (counter-mode
keystream). -/
def keyStream (key nonce : List Nat) (i : Nat) : Nat :=
  (foldBytes key * 131 + foldBytes nonce * 31 + i * 7 + 5) % 256

/-- XOR of a byte list with the keystream starting at position `i`. -/
def xorKS (key nonce : List Nat) (i : Nat) : List Nat → List Nat
  | [] => []
  | c :: cs => (c ^^^ keyStream key nonce i) :: xorKS key nonce (i + 1) cs

/-- Model of the external ring AES-256-GCM `seal_in_place_separate_tag`
followed by appending the 16-byte tag (src/crypto/mod.rs lines 73-79):
ciphertext is the keystream-XORed plaintext, the tag is a 16-byte big-endian
encoding of the polynomial authenticator of the ciphertext. -/
def aeadSeal (key nonce plaintext : List Nat) : List Nat :=
  let ct := xorKS key nonce 0 plaintext
  ct ++ natToBytesBE 16 (polyMac (macR key nonce) ct)

/-- Model of the external ring AES-256-GCM `open_in_place`
(src/crypto/mod.rs lines 89-93): fails unless the input carries a valid
16-byte tag for its ciphertext prefix; on success returns the decrypted
prefix. -/
def aeadOpen (key nonce ctxt : List Nat) : Except CryptoError (List Nat) :=
  if ctxt.length < 16 then .error .RingError
  else
    let ct := ctxt.take (ctxt.length - 16)
    let tg := ctxt.drop (ctxt.length - 16)
    if tg = natToBytesBE 16 (polyMac (macR key nonce) ct) then
      .ok (xorKS key nonce 0 ct)
    else .error .RingError

/-- The polynomial authenticator computed in the field `ZMod macMod`
(proof-side companion of `polyMac`). -/
def polyMacZ (r : ZMod macMod) : List Nat → ZMod macMod
  | [] => 0
  | c :: cs => r * ((c : ZMod macMod) + polyMacZ r cs)

instance factMacModPrime : Fact (Nat.Prime macMod) := ⟨by norm_num⟩

/-- Keys produced by the ntor handshake (src/crypto/mod.rs `NtorKeys`). -/
structure NtorKeys where
  forward_key : List Nat
  backward_key : List Nat
deriving DecidableEq, Repr

/-- Source `OnionCrypto` (src/crypto/mod.rs lines 35-40): per-hop AEAD
state, one key and one 64-bit counter per direction. -/
structure OnionCrypto where
  forward_key : List Nat
  backward_key : List Nat
  forward_nonce : Nat
  backward_nonce : Nat
deriving DecidableEq, Repr

/-- Source `OnionCrypto::from_ntor_keys` (src/crypto/mod.rs lines 58-65):
install the ntor-derived keys with both counters at zero. -/
def OnionCrypto.from_ntor_keys (keys : NtorKeys) : OnionCrypto :=
  { forward_key := keys.forward_key
    backward_key := keys.backward_key
    forward_nonce := 0
    backward_nonce := 0 }

/-- Source `OnionCrypto::encrypt_forward` (src/crypto/mod.rs lines 68-81):
seal the plaintext under the forward key with the nonce of the current
forward counter, then increment the counter.  The counter is a Rust u64;
`self.forward_nonce += 1` carries no overflow check, so the increment is
modelled with reduction modulo 2 ^ 64 (release-build wrapping semantics). -/
def OnionCrypto.encrypt_forward (s : OnionCrypto) (plaintext : List Nat) :
    Except CryptoError (List Nat × OnionCrypto) :=
  let nonce := generate_nonce s.forward_nonce
  .ok (aeadSeal s.forward_key nonce plaintext,
       { s with forward_nonce := (s.forward_nonce + 1) % 2 ^ 64 })

/-- Source `OnionCrypto::decrypt_forward` (src/crypto/mod.rs lines 84-96):
open the ciphertext under the forward key with the nonce of the current
forward counter, then increment the counter (same unchecked u64 increment,
modelled modulo 2 ^ 64).  The source ignores the plaintext slice returned
by `open_in_place` and returns the whole `in_out` buffer (`Ok(in_out)`);
`open_in_place` decrypts the prefix in place and cannot truncate the Vec,
so the returned bytes are the decrypted prefix followed by the 16 trailing
tag bytes unchanged. -/
def OnionCrypto.decrypt_forward (s : OnionCrypto) (ciphertext : List Nat) :
    Except CryptoError (List Nat × OnionCrypto) :=
  let nonce := generate_nonce s.forward_nonce
  match aeadOpen s.forward_key nonce ciphertext with
  | .error e => .error e
  | .ok pt =>
      .ok (pt ++ ciphertext.drop (ciphertext.length - 16),
        { s with forward_nonce := (s.forward_nonce + 1) % 2 ^ 64 })

/-- ASCII bytes of a string. -/
def strBytes (s : String) : List Nat :=
  s.toList.map Char.toNat

/-- The ntor protocol identifier, used both as trailing context and as the
HKDF salt (src/crypto/mod.rs lines 121-123). -/
def ntorProtoId : List Nat := strBytes "ntor-curve25519-sha256-1"

/-- The HKDF expand info string (src/crypto/mod.rs line 126). -/
def ntorInfo : List Nat := strBytes "ntor-kdf-expand"

/-- Model of the external x25519-dalek `diffie_hellman` (Curve25519 shared
secret of a private and a public key): an executable 32-byte stand-in
function of both inputs. -/
def x25519_dh (privKey pubKey : List Nat) : List Nat :=
  (List.range 32).map fun i =>
    (foldBytes privKey * 7 + foldBytes pubKey * 11 + i * 13 + 1) % 256

/-- Model of HKDF-SHA256 extract (external hkdf/sha2 crates): a 32-byte
pseudorandom key from salt and input keying material. -/
def hkdf_extract (salt ikm : List Nat) : List Nat :=
  (List.range 32).map fun i =>
    (foldBytes salt * 257 + foldBytes ikm * 97 + i * 31 + 3) % 256

/-- Model of HKDF-SHA256 expand to a 96-byte output (external hkdf/sha2
crates): the source requests exactly 96 bytes, which always succeeds for
SHA-256 (96 is below 255 * 32), so the model is total with output length
exactly 96. -/
def hkdf_expand96 (prk info : List Nat) : List Nat :=
  (List.range 96).map fun i =>
    (foldBytes prk * 131 + foldBytes info * 37 + i * 17 + 9) % 256

/-- Source `ntor_handshake` (src/crypto/mod.rs lines 105-133): Curve25519
shared secret of the client ephemeral private key and the server ephemeral
public key; HKDF over `secret ++ ID ++ B ++ X ++ Y ++ protoId` with the
protocol identifier as salt; 96 bytes of output keying material split as
forward key, backward key and expected authentication tag. -/
def ntor_handshake (client_private_key client_public_key server_public_key
    relay_identity_key relay_onion_key : List Nat) :
    Except CryptoError (NtorKeys × List Nat) :=
  let ecdh_secret := x25519_dh client_private_key server_public_key
  let secret_input :=
    ecdh_secret ++ relay_identity_key ++ relay_onion_key ++
      client_public_key ++ server_public_key ++ ntorProtoId
  let prk := hkdf_extract ntorProtoId secret_input
  let okm := hkdf_expand96 prk ntorInfo
  let forward_key := okm.take 32
  let backward_key := (okm.drop 32).take 32
  let auth := (okm.drop 64).take 32
  .ok ({ forward_key := forward_key, backward_key := backward_key }, auth)

end Crypto

namespace Directory

/-- Relay flags of src/directory/mod.rs (`RelayFlag`). -/
inductive RelayFlag where
  | Exit
  | Guard
  | Middle
  | Fast
  | Stable
  | Running
  | Valid
  | HSDir
  | V2Dir
  | Authority
  | BadExit
  | Unknown (s : String)
deriving DecidableEq, Repr

/-- IPv4 socket address (the consensus `r` lines carry IPv4 literals; the
source stores a `std::net::SocketAddr`). -/
structure SockAddr where
  a : Nat
  b : Nat
  c : Nat
  d : Nat
  port : Nat
deriving DecidableEq, Repr

/-- Source `RelayDescriptor` (src/directory/mod.rs lines 40-48). -/
structure RelayDescriptor where
  id : String
  nickname : String
  address : SockAddr
  identity_key : List Nat
  onion_key : List Nat
  bandwidth : Nat
  flags : List RelayFlag
deriving DecidableEq, Repr

/-- Source `DirectoryError` (src/directory/mod.rs lines 18-24). -/
inductive DirectoryError where
  | NoSuitableRelays
  | RequestFailed (msg : String)
  | InvalidConsensus (msg : String)
  | ParseError (msg : String)
deriving DecidableEq, Repr

/-- Source `DirectoryClient::is_relay_suitable` (src/directory/mod.rs lines
350-373): Running and Valid are required at every hop and BadExit excludes
the relay everywhere; hop 0 requires Guard and Fast, hop 1 requires Fast
plus Stable and neither Guard nor Exit unless an explicit Middle flag makes
Fast suffice, hop 2 requires Exit and Fast, and any larger hop index
requires only Fast. -/
def is_relay_suitable (relay : RelayDescriptor) (hop : Nat) : Bool :=
  if !(relay.flags.contains RelayFlag.Running) ||
      !(relay.flags.contains RelayFlag.Valid) then false
  else if relay.flags.contains RelayFlag.BadExit then false
  else
    match hop with
    | 0 => relay.flags.contains RelayFlag.Guard && relay.flags.contains RelayFlag.Fast
    | 1 =>
        if relay.flags.contains RelayFlag.Middle then
          relay.flags.contains RelayFlag.Fast
        else
          relay.flags.contains RelayFlag.Fast &&
          relay.flags.contains RelayFlag.Stable &&
          !(relay.flags.contains RelayFlag.Guard) &&
          !(relay.flags.contains RelayFlag.Exit)
    | 2 => relay.flags.contains RelayFlag.Exit && relay.flags.contains RelayFlag.Fast
    | _ => relay.flags.contains RelayFlag.Fast

/-- Suitability predicate written from the specification and claim wording,
for comparison with the source predicate: roles are relative to a circuit of
`num_hops` hops (hop 0 guard, last hop exit, all others middle), Running and
Valid are global preconditions and BadExit excludes the relay everywhere. -/
def spec_suitable (num_hops hop : Nat) (relay : RelayDescriptor) : Bool :=
  if relay.flags.contains RelayFlag.BadExit then false
  else if !(relay.flags.contains RelayFlag.Running) ||
      !(relay.flags.contains RelayFlag.Valid) then false
  else if hop = 0 then
    relay.flags.contains RelayFlag.Guard && relay.flags.contains RelayFlag.Fast
  else if hop = num_hops - 1 then
    relay.flags.contains RelayFlag.Exit && relay.flags.contains RelayFlag.Fast
  else if relay.flags.contains RelayFlag.Middle then
    relay.flags.contains RelayFlag.Fast
  else
    relay.flags.contains RelayFlag.Fast &&
    relay.flags.contains RelayFlag.Stable &&
    !(relay.flags.contains RelayFlag.Guard) &&
    !(relay.flags.contains RelayFlag.Exit)

/-- Placeholder descriptor standing for the unreachable indexing fallbacks
of `select_weighted` (the source indexes only after the emptiness and range
checks guarding those accesses). -/
def default_relay : RelayDescriptor :=
  { id := ""
    nickname := ""
    address := { a := 0, b := 0, c := 0, d := 0, port := 0 }
    identity_key := []
    onion_key := []
    bandwidth := 0
    flags := [] }

/-- Total bandwidth of a candidate list (the `total` sum of
src/directory/mod.rs line 380; a u64 sum of u32 summands, which cannot
overflow for any realistic relay count, kept as Nat). -/
def totalBW (relays : List RelayDescriptor) : Nat :=
  (relays.map (fun r => r.bandwidth)).sum

/-- The subtraction walk of `select_weighted` (src/directory/mod.rs lines
389-394): return the first relay whose bandwidth exceeds the remaining
draw, subtracting each passed bandwidth from the draw. -/
def select_weighted_walk (draw : Nat) : List RelayDescriptor → Option RelayDescriptor
  | [] => none
  | r :: rs =>
      if draw < r.bandwidth then some r else select_weighted_walk (draw - r.bandwidth) rs

/-- Source `DirectoryClient::select_weighted` (src/directory/mod.rs lines
375-397).  The two random draws of the source (`rng.gen_range(0..total)`
and `rng.gen_range(0..relays.len())`) are supplied as explicit parameters
`draw` and `uniformIdx`. -/
def select_weighted (relays : List RelayDescriptor) (draw uniformIdx : Nat) :
    Except DirectoryError RelayDescriptor :=
  if relays.isEmpty then .error .NoSuitableRelays
  else
    let total := totalBW relays
    if total = 0 then .ok (relays.getD uniformIdx default_relay)
    else
      match select_weighted_walk draw relays with
      | some r => .ok r
      | none => .ok (relays.getD 0 default_relay)

/-- The relaxed candidate set of `select_relay` (src/directory/mod.rs lines
429-431): relays with the Running flag and without the BadExit flag. -/
def fallback_set (relays : List RelayDescriptor) : List RelayDescriptor :=
  relays.filter fun r =>
    r.flags.contains RelayFlag.Running && !(r.flags.contains RelayFlag.BadExit)

/-- The relaxed candidate set as worded by the specification and the claim:
Running and Valid and not BadExit (for comparison with `fallback_set`). -/
def spec_relaxed_set (relays : List RelayDescriptor) : List RelayDescriptor :=
  relays.filter fun r =>
    r.flags.contains RelayFlag.Running && r.flags.contains RelayFlag.Valid &&
      !(r.flags.contains RelayFlag.BadExit)

/-- Source `DirectoryClient::select_relay` (src/directory/mod.rs lines
419-442), applied to the relay list of the fetched consensus (the values of
the relay map, in iteration order). -/
def select_relay (relays : List RelayDescriptor) (hop : Nat) (draw uniformIdx : Nat) :
    Except DirectoryError RelayDescriptor :=
  let suitable := relays.filter fun r => is_relay_suitable r hop
  if suitable.isEmpty then
    let fallback := fallback_set relays
    if fallback.isEmpty then .error .NoSuitableRelays
    else select_weighted fallback draw uniformIdx
  else select_weighted suitable draw uniformIdx

/-- Run-collecting loop of `splitWs`. -/
def splitWsAux : List Char → List Char → List String
  | [], acc => if acc.isEmpty then [] else [String.mk acc.reverse]
  | c :: cs, acc =>
      if c.isWhitespace then
        if acc.isEmpty then splitWsAux cs []
        else String.mk acc.reverse :: splitWsAux cs []
      else splitWsAux cs (c :: acc)

/-- Whitespace splitting of a line, as Rust `split_whitespace` (runs of
whitespace separate tokens, no empty tokens). -/
def splitWs (s : String) : List String :=
  splitWsAux s.toList []

/-- Bounded decimal parse, as Rust `str::parse` into a fixed-width unsigned
integer type with bound `bound`. -/
def parseNatBounded (s : String) (bound : Nat) : Option Nat :=
  match strToNatQ s with
  | some n => if n < bound then some n else none
  | none => none

/-- One dotted-decimal IPv4 octet, as Rust `Ipv4Addr` parsing: decimal,
at most 255, no leading zero. -/
def parseIPv4Octet (s : String) : Option Nat :=
  if s.toList = [] then none
  else if 1 < s.toList.length ∧ s.toList.getD 0 ' ' = '0' then none
  else
    match strToNatQ s with
    | some n => if n ≤ 255 then some n else none
    | none => none

/-- Dotted-decimal IPv4 parse, as Rust `Ipv4Addr::from_str`. -/
def parseIPv4 (s : String) : Option (Nat × Nat × Nat × Nat) :=
  match splitChar s '.' with
  | [a, b, c, d] => do
      let va ← parseIPv4Octet a
      let vb ← parseIPv4Octet b
      let vc ← parseIPv4Octet c
      let vd ← parseIPv4Octet d
      pure (va, vb, vc, vd)
  | _ => none

/-- The `format!("ip:port").parse::<SocketAddr>()` step of `parse_relay`
(src/directory/mod.rs lines 270-271); the consensus `r` line address field
is an IPv4 literal, so the IPv6 bracket syntax is not modelled. -/
def parse_socket_addr (ip : String) (port : Nat) : Option SockAddr :=
  (parseIPv4 ip).map fun q =>
    { a := q.1, b := q.2.1, c := q.2.2.1, d := q.2.2.2, port := port }

/-- Value of one standard-base64 alphabet character. -/
def b64val (c : Char) : Option Nat :=
  if 'A' ≤ c ∧ c ≤ 'Z' then some (c.toNat - 65)
  else if 'a' ≤ c ∧ c ≤ 'z' then some (c.toNat - 71)
  else if '0' ≤ c ∧ c ≤ '9' then some (c.toNat + 4)
  else if c = '+' then some 62
  else if c = '/' then some 63
  else none

/-- Model of the external base64 crate `STANDARD.decode`: four-character
groups, padding only in the final group, canonical (zero) trailing bits. -/
def b64decode : List Char → Option (List Nat)
  | [] => some []
  | a :: b :: c :: d :: rest => do
      let va ← b64val a
      let vb ← b64val b
      if c = '=' then
        if d = '=' ∧ rest = [] then
          if vb % 16 = 0 then some [va * 4 + vb / 16] else none
        else none
      else do
        let vc ← b64val c
        if d = '=' then
          if rest = [] then
            if vc % 4 = 0 then some [va * 4 + vb / 16, vb % 16 * 16 + vc / 4]
            else none
          else none
        else do
          let vd ← b64val d
          let tail ← b64decode rest
          some ([va * 4 + vb / 16, vb % 16 * 16 + vc / 4, vc % 4 * 64 + vd] ++ tail)
  | _ => none

/-- URL-safe to standard base64 character substitution of `parse_relay`
(src/directory/mod.rs line 274). -/
def b64urlToStd (c : Char) : Char :=
  if c = '-' then '+' else if c = '_' then '/' else c

/-- Padding loop of `parse_relay` (src/directory/mod.rs lines 275-277):
append `=` until the length is a multiple of four. -/
def pad4 (cs : List Char) : List Char :=
  cs ++ List.replicate ((4 - cs.length % 4) % 4) '='

/-- Source `DirectoryClient::parse_flags` (src/directory/mod.rs lines
326-342); the explicitly listed unknown flags map to `Unknown` exactly as
the catch-all arm does. -/
def flag_of_string (s : String) : RelayFlag :=
  match s with
  | "Exit" => .Exit
  | "Guard" => .Guard
  | "Middle" => .Middle
  | "Fast" => .Fast
  | "Stable" => .Stable
  | "Running" => .Running
  | "Valid" => .Valid
  | "HSDir" => .HSDir
  | "V2Dir" => .V2Dir
  | "Authority" => .Authority
  | "BadExit" => .BadExit
  | other => .Unknown other

/-- Source `DirectoryClient::parse_flags` (src/directory/mod.rs lines
326-342): every whitespace token after the leading `s` becomes a flag. -/
def parse_flags (line : String) : List RelayFlag :=
  ((splitWs line).drop 1).map flag_of_string

/-- Source `DirectoryClient::parse_bandwidth` (src/directory/mod.rs lines
344-348): first token after the line tag carrying a `Bandwidth=` value that
parses as u32. -/
def parse_bandwidth (line : String) : Option Nat :=
  ((splitWs line).drop 1).findSome? fun part =>
    if strStartsWith part ("Bandwidth=") then parseNatBounded (strDrop part 10) (2 ^ 32)
    else none

/-- Bandwidth scan of `parse_relay` (src/directory/mod.rs lines 300-311):
first `w Bandwidth=` value within five lines starting at `j`, defaulting to
1000000. -/
def bw_scan (lines : List String) (j : Nat) : Nat :=
  match (List.range 5).findSome? (fun off => parse_bandwidth (strTrim (lines.getD (j + off) ""))) with
  | some bw => bw
  | none => 1000000

/-- Source `DirectoryClient::parse_relay` (src/directory/mod.rs lines
250-324): parse the nine-field `r` line at index `i`, decode the unpadded
base64 identity to exactly 20 bytes, take the flags from an immediately
following `s` line when present (defaulting to Running and Valid), and scan
up to five further lines for a bandwidth.  The advance of the outer loop
index is not modelled (the outer loop skips to the next `r` line anyway). -/
def parse_relay (lines : List String) (i : Nat) : Except DirectoryError RelayDescriptor :=
  let parts := splitWs (strTrim (lines.getD i ""))
  if parts.length ≠ 9 ∨ parts.getD 0 "" ≠ "r" then .error (.ParseError ("Invalid r line"))
  else
    let nickname := parts.getD 1 ""
    let identity_full := parts.getD 2 ""
    let ip := parts.getD 6 ""
    match parseNatBounded (parts.getD 7 "") (2 ^ 16) with
    | none => .error (.ParseError ("Invalid OR port"))
    | some or_port =>
      match parseNatBounded (parts.getD 8 "") (2 ^ 16) with
      | none => .error (.ParseError ("Invalid Dir port"))
      | some _dir_port =>
        match parse_socket_addr ip or_port with
        | none => .error (.ParseError ("Invalid address"))
        | some address =>
          match b64decode (pad4 (identity_full.toList.map b64urlToStd)) with
          | none => .error (.ParseError ("Invalid identity base64"))
          | some identity_key =>
            if identity_key.length ≠ 20 then
              .error (.ParseError ("Identity key wrong length"))
            else
              let next_line := strTrim (lines.getD (i + 1) "")
              let hasS := decide (i + 1 < lines.length) && strStartsWith next_line ("s ")
              let flags :=
                if hasS then parse_flags next_line
                else [RelayFlag.Running, RelayFlag.Valid]
              let j := if hasS then i + 2 else i + 1
              .ok { id := identity_full
                    nickname := nickname
                    address := address
                    identity_key := identity_key
                    onion_key := identity_key
                    bandwidth := bw_scan lines j
                    flags := flags }

/-- Guard relay A with bandwidth 1 (the literal weighted-selection
scenario of the specification). -/
def relayA : RelayDescriptor :=
  { id := "A"
    nickname := "A"
    address := { a := 10, b := 0, c := 0, d := 1, port := 9001 }
    identity_key := List.replicate 20 1
    onion_key := List.replicate 20 1
    bandwidth := 1
    flags := [.Guard, .Fast, .Running, .Valid] }

/-- Relay B with bandwidth 2. -/
def relayB : RelayDescriptor :=
  { id := "B"
    nickname := "B"
    address := { a := 10, b := 0, c := 0, d := 2, port := 9001 }
    identity_key := List.replicate 20 2
    onion_key := List.replicate 20 2
    bandwidth := 2
    flags := [.Guard, .Fast, .Running, .Valid] }

/-- Relay C with bandwidth 3. -/
def relayC : RelayDescriptor :=
  { id := "C"
    nickname := "C"
    address := { a := 10, b := 0, c := 0, d := 3, port := 9001 }
    identity_key := List.replicate 20 3
    onion_key := List.replicate 20 3
    bandwidth := 3
    flags := [.Guard, .Fast, .Running, .Valid] }

/-- A relay carrying only the Running flag (in particular not Valid). -/
def runningOnlyRelay : RelayDescriptor :=
  { id := "R"
    nickname := "R"
    address := { a := 10, b := 0, c := 0, d := 4, port := 9001 }
    identity_key := List.replicate 20 4
    onion_key := List.replicate 20 4
    bandwidth := 5
    flags := [.Running] }

/-- The literal consensus `r` line of the specification's parse scenario. -/
def sampleRLine : String :=
  "r Foo AAAAAAAAAAAAAAAAAAAAAAAAAAA dddd 2024-01-15 12:00:00 10.0.0.1 9001 0"

/-- A `w` line directly after the `r` line (no `s` line in between). -/
def sampleWLine : String := "w Bandwidth=5000"

/-- The descriptor `parse_relay` produces for `sampleRLine` followed by
`sampleWLine`: no `s` line, so the flags default to Running and Valid. -/
def sampleParsedRelay : RelayDescriptor :=
  { id := "AAAAAAAAAAAAAAAAAAAAAAAAAAA"
    nickname := "Foo"
    address := { a := 10, b := 0, c := 0, d := 1, port := 9001 }
    identity_key := List.replicate 20 0
    onion_key := List.replicate 20 0
    bandwidth := 5000
    flags := [.Running, .Valid] }

end Directory

namespace Cells

/-- Cell command constants of src/network/cells.rs lines 5-7. -/
def CELL_COMMAND_CREATE2 : Nat := 10

/-- CREATED2 cell command (src/network/cells.rs line 6). -/
def CELL_COMMAND_CREATED2 : Nat := 11

/-- RELAY cell command (src/network/cells.rs line 7). -/
def CELL_COMMAND_RELAY : Nat := 3

/-- Source `Create2Cell` (src/network/cells.rs lines 17-20). -/
structure Create2Cell where
  handshake_type : Nat
  handshake_data : List Nat
deriving DecidableEq, Repr

/-- Source `Create2Cell::new` (src/network/cells.rs lines 23-30): ntor
handshake type 2 with the client public key as handshake data. -/
def Create2Cell.new (client_public_key : List Nat) : Create2Cell :=
  { handshake_type := 2, handshake_data := client_public_key }

/-- Source `Create2Cell::to_bytes` (src/network/cells.rs lines 32-38):
2-byte big-endian type, 2-byte big-endian data length (cast to u16), then
the data. -/
def Create2Cell.to_bytes (c : Create2Cell) : List Nat :=
  natToBytesBE 2 (c.handshake_type % 2 ^ 16) ++
  natToBytesBE 2 (c.handshake_data.length % 2 ^ 16) ++
  c.handshake_data

/-- Source `Created2Cell` (src/network/cells.rs lines 42-45). -/
structure Created2Cell where
  server_public_key : List Nat
  auth : List Nat
deriving DecidableEq, Repr

/-- Source `Created2Cell::from_bytes` (src/network/cells.rs lines 48-69):
2-byte length that must equal 64, then the 32-byte server ephemeral public
key and the 32-byte authentication tag. -/
def Created2Cell.from_bytes (payload : List Nat) : Except String Created2Cell :=
  if payload.length < 2 then .error ("Payload too short for CREATED2 cell")
  else
    let hlen := foldBytes (payload.take 2)
    if hlen ≠ 64 then .error ("Invalid HLEN for CREATED2 cell")
    else if payload.length < 2 + 64 then .error ("Payload too short for CREATED2 cell")
    else
      let hdata := payload.drop 2
      .ok { server_public_key := hdata.take 32, auth := (hdata.drop 32).take 32 }

end Cells

namespace Circuit

/-- Source `CircuitError` (src/circuit/mod.rs lines 12-19). -/
inductive CircuitError where
  | Crypto (msg : String)
  | Directory (e : Directory.DirectoryError)
  | Io (msg : String)
  | NoSuitableRelays
  | HandshakeFailed (msg : String)
deriving DecidableEq, Repr

/-- Source `CircuitState` (src/circuit/mod.rs lines 52-58). -/
inductive CircuitState where
  | Building
  | Ready
  | Closed
  | Error (reason : String)
deriving DecidableEq, Repr

/-- Source `RelayHop` (src/circuit/mod.rs lines 35-42).  The Boolean
`handshaked` is ghost instrumentation: false on construction and set to true
exactly where the source installs the ntor-derived keys into the hop
(src/circuit/mod.rs line 208), so it records whether the hop ever completed
a handshake. -/
structure RelayHop where
  relay_id : String
  ip : Directory.SockAddr
  identity_key : List Nat
  onion_key : List Nat
  crypto_state : Crypto.OnionCrypto
  handshaked : Bool
deriving DecidableEq, Repr

/-- Source `Circuit` (src/circuit/mod.rs lines 44-50); the creation
timestamp (a wall-clock `Instant`) is not modelled. -/
structure Circuit where
  id : Nat
  hops : List RelayHop
  state : CircuitState
deriving DecidableEq, Repr

/-- Source `CircuitManager` state (src/circuit/mod.rs lines 60-64): the
circuit map as an association list (first binding wins) and the monotonic
u32 id counter. -/
structure CircuitManagerState where
  circuits : List (Nat × Circuit)
  next_circuit_id : Nat
deriving DecidableEq, Repr

/-- Source `CircuitManager::new` (src/circuit/mod.rs lines 67-72). -/
def CircuitManagerState.init : CircuitManagerState :=
  { circuits := [], next_circuit_id := 1 }

/-- HashMap lookup on the circuit map model. -/
def lookupCircuit (st : CircuitManagerState) (id : Nat) : Option Circuit :=
  (st.circuits.find? fun p => p.1 = id).map fun p => p.2

/-- HashMap insert (overwriting) on the circuit map model. -/
def insertCircuit (st : CircuitManagerState) (id : Nat) (c : Circuit) : CircuitManagerState :=
  { st with circuits := (id, c) :: st.circuits.filter fun p => p.1 ≠ id }

/-- Result of a circuit operation: success, a propagated `CircuitError`, or
a Rust panic (out-of-bounds indexing). -/
inductive Outcome (α : Type) where
  | ok (a : α)
  | err (e : CircuitError)
  | panicked
deriving DecidableEq, Repr

/-- Network oracle standing for the TCP connection of `perform_handshakes`:
the outcomes of `TcpStream::connect`, `write_all`, and the single `read`
that returns the response bytes. -/
structure NetOracle where
  connect : Directory.SockAddr → Except String Unit
  write : List Nat → Except String Unit
  read : Except String (List Nat)

/-- Model of the external x25519-dalek `PublicKey::from(&EphemeralSecret)`
(Curve25519 base-point multiplication): an executable 32-byte stand-in
function of the private key. -/
def x25519_base (privKey : List Nat) : List Nat :=
  (List.range 32).map fun i => (foldBytes privKey * 19 + i * 23 + 2) % 256

/-- Rendering of `format!("{:?}", err)` for the `From<CryptoError>`
conversion (src/circuit/mod.rs lines 21-25). -/
def cryptoErrMsg (e : Crypto.CryptoError) : String :=
  match e with
  | .RingError => "RingError(Unspecified)"
  | .NtorError m => "NtorError(" ++ m ++ ")"

/-- Source `CircuitManager::perform_handshakes` (src/circuit/mod.rs lines
141-213): handshake with the FIRST hop only (the source comment reads "For
now, we only handle the first hop").  Build a CREATE2 cell for the client
ephemeral key, send it over a fresh TCP connection (the `net` oracle),
parse the CREATED2 response, run the ntor handshake and compare the
authentication tag, then install the derived keys into hop 0.  Indexing an
empty hop vector, or a response shorter than five bytes, panics in Rust and
is modelled as `Outcome.panicked`. -/
def perform_handshakes (circuit : Circuit) (client_private_key : List Nat)
    (net : NetOracle) : Outcome Circuit :=
  match circuit.hops with
  | [] => .panicked
  | hop :: rest =>
    let client_public_key := x25519_base client_private_key
    let create2_cell_payload := (Cells.Create2Cell.new client_public_key).to_bytes
    let cell_bytes :=
      natToBytesBE 4 (circuit.id % 2 ^ 32) ++ [Cells.CELL_COMMAND_CREATE2] ++ create2_cell_payload
    let cell_bytes := cell_bytes.take 514 ++ List.replicate (514 - cell_bytes.length) 0
    match net.connect hop.ip with
    | .error e => .err (.Io e)
    | .ok _ =>
      match net.write cell_bytes with
      | .error e => .err (.Io e)
      | .ok _ =>
        match net.read with
        | .error e => .err (.Io e)
        | .ok response_cell =>
          if response_cell.length < 5 then .panicked
          else
            let response_circ_id := foldBytes (response_cell.take 4)
            let response_command := response_cell.getD 4 0
            let response_payload := response_cell.drop 5
            if response_circ_id ≠ circuit.id % 2 ^ 32 ∨
                response_command ≠ Cells.CELL_COMMAND_CREATED2 then
              .err (.HandshakeFailed ("Invalid response from relay"))
            else
              match Cells.Created2Cell.from_bytes response_payload with
              | .error e => .err (.HandshakeFailed e)
              | .ok created2_cell =>
                match Crypto.ntor_handshake client_private_key client_public_key
                    created2_cell.server_public_key hop.identity_key hop.onion_key with
                | .error e => .err (.Crypto (cryptoErrMsg e))
                | .ok (keys, auth) =>
                  if auth ≠ created2_cell.auth then
                    .err (.HandshakeFailed ("Invalid auth value from relay"))
                  else
                    .ok { circuit with
                          hops := { hop with
                                    crypto_state := Crypto.OnionCrypto.from_ntor_keys keys
                                    handshaked := true } :: rest }

/-- The relay-selection loop of `create_circuit` (src/circuit/mod.rs lines
96-117): one `select_relay(hop_num)` call and one fresh `OnionCrypto::new`
per hop.  `selectRelay` stands for the directory client (its randomness and
network effects included); `freshCrypto` stands for the random initial AEAD
state. -/
def selectHopsAux (selectRelay : Nat → Except Directory.DirectoryError Directory.RelayDescriptor)
    (freshCrypto : Nat → Crypto.OnionCrypto) (hop_num : Nat) :
    Nat → Except Directory.DirectoryError (List RelayHop)
  | 0 => .ok []
  | remaining + 1 =>
    match selectRelay hop_num with
    | .error e => .error e
    | .ok relay =>
      match selectHopsAux selectRelay freshCrypto (hop_num + 1) remaining with
      | .error e => .error e
      | .ok hops =>
        .ok ({ relay_id := relay.id
               ip := relay.address
               identity_key := relay.identity_key
               onion_key := relay.onion_key
               crypto_state := freshCrypto hop_num
               handshaked := false } :: hops)

/-- Source `CircuitManager::create_circuit` (src/circuit/mod.rs lines
79-139): allocate the next circuit id (u32 increment under lock), select
`num_hops` relays, store the circuit in state Building, drive
`perform_handshakes`, and on success mark the stored circuit Ready and
return the id.  Errors propagate to the caller via `?`; note that no error
path updates the stored circuit. -/
def create_circuit (st : CircuitManagerState) (num_hops : Nat)
    (selectRelay : Nat → Except Directory.DirectoryError Directory.RelayDescriptor)
    (freshCrypto : Nat → Crypto.OnionCrypto) (client_private_key : List Nat)
    (net : NetOracle) : CircuitManagerState × Outcome Nat :=
  let circuit_id := st.next_circuit_id
  let st1 := { st with next_circuit_id := (st.next_circuit_id + 1) % 2 ^ 32 }
  match selectHopsAux selectRelay freshCrypto 0 num_hops with
  | .error e => (st1, .err (.Directory e))
  | .ok hops =>
    let circuit : Circuit := { id := circuit_id, hops := hops, state := .Building }
    let st2 := insertCircuit st1 circuit_id circuit
    match perform_handshakes circuit client_private_key net with
    | .panicked => (st2, .panicked)
    | .err e => (st2, .err e)
    | .ok circuit2 =>
      let st3 := insertCircuit st2 circuit_id { circuit2 with state := .Ready }
      (st3, .ok circuit_id)

/-- Sample guard relay (mock-consensus style: zeroed identity and onion
keys). -/
def sampleGuard : Directory.RelayDescriptor :=
  { id := "mock-Guard1"
    nickname := "Guard1"
    address := { a := 192, b := 168, c := 1, d := 1, port := 9001 }
    identity_key := List.replicate 20 0
    onion_key := List.replicate 32 0
    bandwidth := 1000000
    flags := [.Guard, .Fast, .Running, .Valid] }

/-- Sample middle relay. -/
def sampleMiddle : Directory.RelayDescriptor :=
  { id := "mock-Middle1"
    nickname := "Middle1"
    address := { a := 192, b := 168, c := 1, d := 2, port := 9001 }
    identity_key := List.replicate 20 0
    onion_key := List.replicate 32 0
    bandwidth := 2000000
    flags := [.Fast, .Stable, .Running, .Valid] }

/-- Sample exit relay. -/
def sampleExit : Directory.RelayDescriptor :=
  { id := "mock-Exit1"
    nickname := "Exit1"
    address := { a := 192, b := 168, c := 1, d := 3, port := 9001 }
    identity_key := List.replicate 20 0
    onion_key := List.replicate 32 0
    bandwidth := 3000000
    flags := [.Exit, .Fast, .Running, .Valid] }

/-- Relay selection oracle returning the sample guard, middle and exit. -/
def sampleSelect : Nat → Except Directory.DirectoryError Directory.RelayDescriptor :=
  fun hop => if hop = 0 then .ok sampleGuard
    else if hop = 1 then .ok sampleMiddle else .ok sampleExit

/-- Randomness oracle for the initial per-hop AEAD state. -/
def sampleFresh : Nat → Crypto.OnionCrypto :=
  fun _ =>
    { forward_key := List.replicate 32 4
      backward_key := List.replicate 32 5
      forward_nonce := 0
      backward_nonce := 0 }

/-- Sample client ephemeral private key. -/
def samplePriv : List Nat := List.replicate 32 3

/-- Sample server ephemeral public key. -/
def sampleServerPub : List Nat := List.replicate 32 9

/-- The authentication tag the client will recompute for the sample
handshake inputs. -/
def sampleAuth : List Nat :=
  match Crypto.ntor_handshake samplePriv (Circuit.x25519_base samplePriv) sampleServerPub
      sampleGuard.identity_key sampleGuard.onion_key with
  | .ok (_, a) => a
  | .error _ => []

/-- A well-formed CREATED2 response cell for circuit id 1 carrying the
matching authentication tag. -/
def goodResponse : List Nat :=
  natToBytesBE 4 1 ++ [Cells.CELL_COMMAND_CREATED2] ++ natToBytesBE 2 64 ++
    sampleServerPub ++ sampleAuth

/-- Network oracle delivering the well-formed matching response. -/
def okNet : NetOracle :=
  { connect := fun _ => .ok ()
    write := fun _ => .ok ()
    read := .ok goodResponse }

/-- A well-formed CREATED2 response cell whose authentication tag is wrong
(all zeroes). -/
def badAuthResponse : List Nat :=
  natToBytesBE 4 1 ++ [Cells.CELL_COMMAND_CREATED2] ++ natToBytesBE 2 64 ++
    sampleServerPub ++ List.replicate 32 0

/-- Network oracle delivering the wrong-tag response. -/
def badAuthNet : NetOracle :=
  { connect := fun _ => .ok ()
    write := fun _ => .ok ()
    read := .ok badAuthResponse }

/-- Network oracle whose TCP connect is refused. -/
def refusedNet : NetOracle :=
  { connect := fun _ => .error ("connection refused")
    write := fun _ => .ok ()
    read := .ok [] }

end Circuit

namespace Socks5

/-- Source `ProxyError` (src/proxy/socks5.rs lines 8-13). -/
inductive ProxyError where
  | InvalidVersion (v : Nat)
  | Io (msg : String)
  | Circuit (e : Circuit.CircuitError)
  | Unsupported (msg : String)
deriving DecidableEq, Repr

/-- The client TCP stream: unread input bytes and the sequence of write_all
calls performed so far. -/
structure Stream where
  input : List Nat
  writes : List (List Nat)
deriving DecidableEq, Repr

/-- Tokio `read_exact`: consume exactly `k` bytes or fail with an I/O
error (early EOF). -/
def read_exact (s : Stream) (k : Nat) : Except ProxyError (List Nat × Stream) :=
  if s.input.length < k then .error (.Io ("failed to fill whole buffer"))
  else .ok (s.input.take k, { s with input := s.input.drop k })

/-- Tokio `write_all` on the model stream: record the written bytes. -/
def write_all (s : Stream) (bytes : List Nat) : Stream :=
  { s with writes := s.writes ++ [bytes] }

/-- Source `Socks5Request` (src/proxy/socks5.rs lines 303-307). -/
structure Socks5Request where
  host : String
  port : Nat
deriving DecidableEq, Repr

/-- Lowercase hexadecimal digit. -/
def hexChar (n : Nat) : Char :=
  "0123456789abcdef".toList.getD n '0'

/-- Two-digit lowercase hexadecimal rendering of a byte, as the `{:02x}`
format of src/proxy/socks5.rs line 265. -/
def byteHex (b : Nat) : String :=
  String.mk [hexChar (b / 16 % 16), hexChar (b % 16)]

/-- Dotted-decimal rendering of four IPv4 bytes (src/proxy/socks5.rs line
250). -/
def formatIPv4 (bytes : List Nat) : String :=
  natRepr (bytes.getD 0 0) ++ "." ++ natRepr (bytes.getD 1 0) ++ "." ++
    natRepr (bytes.getD 2 0) ++ "." ++ natRepr (bytes.getD 3 0)

/-- Colon-separated hex rendering of sixteen IPv6 bytes, two bytes per
group (src/proxy/socks5.rs lines 265-267). -/
def formatIPv6 (bytes : List Nat) : String :=
  joinSep (":")
    ((List.range 8).map fun g => byteHex (bytes.getD (2 * g) 0) ++ byteHex (bytes.getD (2 * g + 1) 0))

/-- Model of `String::from_utf8_lossy` for the domain bytes
(src/proxy/socks5.rs line 259), exact on ASCII input. -/
def lossyString (bytes : List Nat) : String :=
  String.mk (bytes.map Char.ofNat)

/-- Source `Socks5Proxy::perform_handshake` (src/proxy/socks5.rs lines
190-220): read version and method count, reject version other than 5, read
the offered methods, reply `05 00`. -/
def proxy_handshake (s : Stream) : Stream × Except ProxyError Unit :=
  match read_exact s 2 with
  | .error e => (s, .error e)
  | .ok (buf, s1) =>
    let version := buf.getD 0 0
    let nmethods := buf.getD 1 0
    if version ≠ 5 then (s1, .error (.InvalidVersion version))
    else
      match read_exact s1 nmethods with
      | .error e => (s1, .error e)
      | .ok (_methods, s2) => (write_all s2 [5, 0], .ok ())

/-- Source `Socks5Proxy::parse_request` (src/proxy/socks5.rs lines
222-280): read the four-byte request header, reject version other than 5,
reject any command other than 1 (CONNECT) with `Unsupported`, read the
address per address type (1 IPv4, 3 domain, 4 IPv6), then the two-byte
big-endian port. -/
def parse_request (s : Stream) : Stream × Except ProxyError Socks5Request :=
  match read_exact s 4 with
  | .error e => (s, .error e)
  | .ok (buf, s1) =>
    let version := buf.getD 0 0
    let cmd := buf.getD 1 0
    let atyp := buf.getD 3 0
    if version ≠ 5 then (s1, .error (.InvalidVersion version))
    else if cmd ≠ 1 then
      (s1, .error (.Unsupported ("Command " ++ natRepr cmd ++ " not supported")))
    else
      let afterHost : Except ProxyError (String × Stream) :=
        if atyp = 1 then
          match read_exact s1 4 with
          | .error e => .error e
          | .ok (addr, s2) => .ok (formatIPv4 addr, s2)
        else if atyp = 3 then
          match read_exact s1 1 with
          | .error e => .error e
          | .ok (lenBuf, s2) =>
            match read_exact s2 (lenBuf.getD 0 0) with
            | .error e => .error e
            | .ok (domain, s3) => .ok (lossyString domain, s3)
        else if atyp = 4 then
          match read_exact s1 16 with
          | .error e => .error e
          | .ok (addr, s2) => .ok (formatIPv6 addr, s2)
        else .error (.Unsupported ("Address type " ++ natRepr atyp ++ " not supported"))
      match afterHost with
      | .error e => (s1, .error e)
      | .ok (host, s2) =>
        match read_exact s2 2 with
        | .error e => (s2, .error e)
        | .ok (portBuf, s3) => (s3, .ok { host := host, port := foldBytes portBuf })

/-- Source `Socks5Proxy::send_response` (src/proxy/socks5.rs lines
282-300): the ten-byte SOCKS5 reply with the given status and bind address
0.0.0.0:0. -/
def send_response (s : Stream) (status : Nat) : Stream :=
  write_all s [5, status, 0, 1, 0, 0, 0, 0, 0, 0]

/-- The SOCKS5 reply bytes for a given status code. -/
def replyBytes (status : Nat) : List Nat :=
  [5, status, 0, 1, 0, 0, 0, 0, 0, 0]

/-- Source `Socks5Proxy::handle_client` (src/proxy/socks5.rs lines 73-188):
SOCKS5 handshake, request parse, then one `create_circuit(3, ..)` call
(the outcome of which is the `circuitResult` parameter); reply status 0 on
success and status 1 on failure.  Errors of the handshake or of the request
parse propagate via `?`, ending the handler with no further write.  The
experimental direct-connect relaying after the success reply
(src/proxy/socks5.rs lines 101-178) is elided: it writes only raw relayed
bytes, never a SOCKS5 reply, and is unreachable in the paths the claims
concern. -/
def handle_client (s0 : Stream) (circuitResult : Except Circuit.CircuitError Nat) :
    Stream × Except ProxyError Unit :=
  match proxy_handshake s0 with
  | (s1, .error e) => (s1, .error e)
  | (s1, .ok _) =>
    match parse_request s1 with
    | (s2, .error e) => (s2, .error e)
    | (s2, .ok _request) =>
      match circuitResult with
      | .ok _ => (send_response s2 0, .ok ())
      | .error _ => (send_response s2 1, .ok ())

end Socks5

namespace Crypto

theorem natToBytesBE_length (k n : Nat) : (natToBytesBE k n).length = k := by
  induction k generalizing n with
  | zero => rfl
  | succ k ih => simp [natToBytesBE, ih]

theorem foldBytes_append_one (l : List Nat) (b : Nat) :
    foldBytes (l ++ [b]) = foldBytes l * 256 + b := by
  simp [foldBytes, List.foldl_append]

theorem foldBytes_natToBytesBE (k n : Nat) (h : n < 256 ^ k) :
    foldBytes (natToBytesBE k n) = n := by
  induction k generalizing n with
  | zero =>
    have hn : n = 0 := by simpa using h
    subst hn; rfl
  | succ k ih =>
    have hd : n / 256 < 256 ^ k := by
      rw [Nat.div_lt_iff_lt_mul (by norm_num)]
      calc n < 256 ^ (k + 1) := h
        _ = 256 ^ k * 256 := by ring
    rw [natToBytesBE, foldBytes_append_one, ih _ hd]
    omega

theorem natToBytesBE_injOn (k a b : Nat) (ha : a < 256 ^ k) (hb : b < 256 ^ k)
    (h : natToBytesBE k a = natToBytesBE k b) : a = b := by
  have hfb := congrArg foldBytes h
  rwa [foldBytes_natToBytesBE k a ha, foldBytes_natToBytesBE k b hb] at hfb

theorem xorKS_length (key nonce : List Nat) (i : Nat) (l : List Nat) :
    (xorKS key nonce i l).length = l.length := by
  induction l generalizing i with
  | nil => rfl
  | cons c cs ih => simp [xorKS, ih]

theorem xorKS_xorKS (key nonce : List Nat) (i : Nat) (l : List Nat) :
    xorKS key nonce i (xorKS key nonce i l) = l := by
  induction l generalizing i with
  | nil => rfl
  | cons c cs ih => simp [xorKS, ih, Nat.xor_cancel_right]

theorem xorKS_lt (key nonce : List Nat) (i : Nat) (l : List Nat)
    (h : ∀ x ∈ l, x < 256) : ∀ x ∈ xorKS key nonce i l, x < 256 := by
  induction l generalizing i with
  | nil => intro x hx; simp [xorKS] at hx
  | cons c cs ih =>
    intro x hx
    simp only [xorKS, List.mem_cons] at hx
    rcases hx with hx | hx
    · subst hx
      have h1 : c < 2 ^ 8 := by
        have := h c (by simp)
        norm_num at this ⊢
        exact this
      have h2 : keyStream key nonce i < 2 ^ 8 := by
        unfold keyStream
        norm_num
        omega
      have := Nat.xor_lt_two_pow h1 h2
      norm_num at this
      exact this
    · exact ih (i + 1) (fun y hy => h y (by simp [hy])) x hx

theorem polyMac_lt (r : Nat) (l : List Nat) : polyMac r l < macMod := by
  cases l with
  | nil => simp [polyMac]
  | cons c cs =>
    rw [polyMac]
    exact Nat.mod_lt _ (by norm_num)

theorem polyMac_cast (r : Nat) (l : List Nat) :
    ((polyMac r l : Nat) : ZMod macMod) = polyMacZ (r : ZMod macMod) l := by
  induction l with
  | nil => simp [polyMac, polyMacZ]
  | cons c cs ih =>
    rw [polyMac, polyMacZ, ZMod.natCast_mod]
    push_cast
    rw [ih]

theorem polyMacZ_set (r : ZMod macMod) (l : List Nat) :
    ∀ i b : Nat, i < l.length →
      polyMacZ r (l.set i b) =
        polyMacZ r l + r ^ (i + 1) * ((b : ZMod macMod) - ((l.getD i 0 : Nat) : ZMod macMod)) := by
  induction l with
  | nil => intro i b h; simp at h
  | cons c cs ih =>
    intro i b h
    cases i with
    | zero =>
      rw [List.set_cons_zero, List.getD_cons_zero]
      simp only [polyMacZ]
      ring
    | succ i =>
      have hi : i < cs.length := by simpa using h
      rw [List.set_cons_succ, List.getD_cons_succ]
      simp only [polyMacZ]
      rw [ih i b hi]
      ring

theorem macR_cast_ne_zero (key nonce : List Nat) :
    ((macR key nonce : Nat) : ZMod macMod) ≠ 0 := by
  have h1 : macR key nonce < macMod := by
    unfold macR
    show foldBytes (key ++ nonce) % (65537 - 1) + 1 < 65537
    omega
  have h2 : 0 < macR key nonce := by unfold macR; omega
  intro hc
  have hv := congrArg ZMod.val hc
  rw [ZMod.val_cast_of_lt h1] at hv
  simp at hv
  omega

theorem polyMac_set_ne (key nonce : List Nat) (l : List Nat) (i b : Nat)
    (hi : i < l.length) (hb : b < 256) (hl : ∀ x ∈ l, x < 256)
    (hne : b ≠ l.getD i 0) :
    polyMac (macR key nonce) (l.set i b) ≠ polyMac (macR key nonce) l := by
  intro hc
  have hz := congrArg (fun n : Nat => (n : ZMod macMod)) hc
  simp only [polyMac_cast] at hz
  rw [polyMacZ_set _ l i b hi] at hz
  have h0 := add_right_eq_self.mp hz
  have hc256 : l.getD i 0 < 256 := by
    have hmem : l.getD i 0 ∈ l := by
      rw [List.getD_eq_getElem _ _ hi]
      exact List.getElem_mem hi
    exact hl _ hmem
  have hbc : (b : ZMod macMod) ≠ ((l.getD i 0 : Nat) : ZMod macMod) := by
    intro he
    have hv := congrArg ZMod.val he
    rw [ZMod.val_cast_of_lt (lt_of_lt_of_le hb (by norm_num)),
      ZMod.val_cast_of_lt (lt_of_lt_of_le hc256 (by norm_num))] at hv
    exact hne hv
  rcases mul_eq_zero.mp h0 with h | h
  · exact pow_ne_zero _ (macR_cast_ne_zero key nonce) h
  · exact hbc (by rwa [sub_eq_zero] at h)

theorem aeadSeal_eq (key nonce p : List Nat) :
    aeadSeal key nonce p =
      xorKS key nonce 0 p ++
        natToBytesBE 16 (polyMac (macR key nonce) (xorKS key nonce 0 p)) := rfl

theorem aeadSeal_length (key nonce p : List Nat) :
    (aeadSeal key nonce p).length = p.length + 16 := by
  rw [aeadSeal_eq]
  simp [xorKS_length, natToBytesBE_length]

theorem aeadOpen_aeadSeal (key nonce p : List Nat) :
    aeadOpen key nonce (aeadSeal key nonce p) = .ok p := by
  have hct : (xorKS key nonce 0 p).length = p.length := xorKS_length key nonce 0 p
  rw [aeadSeal_eq]
  unfold aeadOpen
  rw [if_neg (by simp [hct, natToBytesBE_length])]
  have hlen : (xorKS key nonce 0 p ++
      natToBytesBE 16 (polyMac (macR key nonce) (xorKS key nonce 0 p))).length = p.length + 16 := by
    simp [hct, natToBytesBE_length]
  rw [hlen]
  rw [List.take_left' (by rw [hct]; omega), List.drop_left' (by rw [hct]; omega)]
  rw [if_pos rfl, xorKS_xorKS]

theorem aeadOpen_tamper (key nonce p : List Nat) (i b : Nat)
    (hi : i < (aeadSeal key nonce p).length) (hb : b < 256)
    (hp : ∀ x ∈ p, x < 256)
    (hne : b ≠ (aeadSeal key nonce p).getD i 0) :
    aeadOpen key nonce ((aeadSeal key nonce p).set i b) = .error .RingError := by
  have hct : (xorKS key nonce 0 p).length = p.length := xorKS_length key nonce 0 p
  have htag : (natToBytesBE 16 (polyMac (macR key nonce) (xorKS key nonce 0 p))).length = 16 :=
    natToBytesBE_length 16 _
  have hi' : i < p.length + 16 := by rwa [aeadSeal_length] at hi
  by_cases hcase : i < p.length
  · -- the altered byte lies in the ciphertext part
    have hset : (aeadSeal key nonce p).set i b =
        (xorKS key nonce 0 p).set i b ++
          natToBytesBE 16 (polyMac (macR key nonce) (xorKS key nonce 0 p)) := by
      rw [aeadSeal_eq, List.set_append, if_pos (by omega)]
    rw [hset]
    unfold aeadOpen
    rw [if_neg (by simp [hct, natToBytesBE_length])]
    have hlen : ((xorKS key nonce 0 p).set i b ++
        natToBytesBE 16 (polyMac (macR key nonce) (xorKS key nonce 0 p))).length =
          p.length + 16 := by
      simp [hct, natToBytesBE_length]
    rw [hlen]
    rw [List.take_left' (by rw [List.length_set, hct]; omega),
      List.drop_left' (by rw [List.length_set, hct]; omega)]
    rw [if_neg ?_]
    intro hcontra
    have hmac := natToBytesBE_injOn 16 _ _
      (lt_of_lt_of_le (polyMac_lt _ _) (by norm_num))
      (lt_of_lt_of_le (polyMac_lt _ _) (by norm_num)) hcontra
    have hgd : (aeadSeal key nonce p).getD i 0 = (xorKS key nonce 0 p).getD i 0 := by
      rw [aeadSeal_eq]
      exact List.getD_append _ _ _ _ (by omega)
    exact polyMac_set_ne key nonce (xorKS key nonce 0 p) i b (by omega) hb
      (xorKS_lt key nonce 0 p hp) (by rwa [hgd] at hne) hmac.symm
  · -- the altered byte lies in the tag part
    have hjlt : i - p.length < 16 := by omega
    have hset : (aeadSeal key nonce p).set i b =
        xorKS key nonce 0 p ++
          (natToBytesBE 16 (polyMac (macR key nonce) (xorKS key nonce 0 p))).set
            (i - p.length) b := by
      rw [aeadSeal_eq, List.set_append, if_neg (by omega), hct]
    rw [hset]
    unfold aeadOpen
    rw [if_neg (by simp [hct, natToBytesBE_length])]
    have hlen : (xorKS key nonce 0 p ++
        (natToBytesBE 16 (polyMac (macR key nonce) (xorKS key nonce 0 p))).set
          (i - p.length) b).length = p.length + 16 := by
      simp [hct, natToBytesBE_length]
    rw [hlen]
    rw [List.take_left' (by rw [hct]; omega), List.drop_left' (by rw [hct]; omega)]
    rw [if_neg ?_]
    intro hcontra
    have hjlt' : i - p.length <
        ((natToBytesBE 16 (polyMac (macR key nonce) (xorKS key nonce 0 p))).set
          (i - p.length) b).length := by
      simp [natToBytesBE_length]
      omega
    have hgetset : ((natToBytesBE 16 (polyMac (macR key nonce) (xorKS key nonce 0 p))).set
        (i - p.length) b).getD (i - p.length) 0 = b := by
      rw [List.getD_eq_getElem _ _ hjlt']
      exact List.getElem_set_self hjlt'
    rw [hcontra] at hgetset
    have hgd : (aeadSeal key nonce p).getD i 0 =
        (natToBytesBE 16 (polyMac (macR key nonce) (xorKS key nonce 0 p))).getD
          (i - p.length) 0 := by
      rw [aeadSeal_eq]
      rw [List.getD_append_right _ _ _ _ (by rw [hct]; omega), hct]
    rw [hgd] at hne
    exact hne hgetset.symm

end Crypto

/-- C3: for all inputs (client ephemeral private key x with public key X,
server ephemeral public key Y, relay identity ID, relay onion key B),
`ntor_handshake` computes the Curve25519 shared secret of x and Y, runs
HKDF-SHA256 over the concatenation secret, ID, B, X, Y and the protocol
string with the protocol identifier as salt, expands to exactly 96 bytes,
and returns bytes 0..32 as the forward AEAD key, bytes 32..64 as the
backward AEAD key, and bytes 64..96 as the expected authentication tag. -/
theorem C3_ntor_hkdf_structure (x X Y ID B : List Nat) :
    (let s := Crypto.x25519_dh x Y
     let okm := Crypto.hkdf_expand96
       (Crypto.hkdf_extract Crypto.ntorProtoId
         (s ++ ID ++ B ++ X ++ Y ++ Crypto.ntorProtoId)) Crypto.ntorInfo
     Crypto.ntor_handshake x X Y ID B =
        .ok ({ forward_key := okm.take 32, backward_key := (okm.drop 32).take 32 },
          (okm.drop 64).take 32) ∧
      okm.length = 96 ∧
      (okm.take 32).length = 32 ∧
      ((okm.drop 32).take 32).length = 32 ∧
      ((okm.drop 64).take 32).length = 32) := by
  refine ⟨rfl, ?_, ?_, ?_, ?_⟩ <;> simp [Crypto.hkdf_expand96]

/-- C4: the claimed round-trip law fails on the code.  For every plaintext
of bytes and every pair of forward AEAD states agreeing on the forward key
and forward counter, decrypting the output of `encrypt_forward` succeeds
but returns the plaintext followed by the 16 leftover tag bytes — not
exactly the plaintext — because the source returns the whole `in_out`
buffer instead of the plaintext slice of `open_in_place`.  Opening the
ciphertext with any single byte altered does fail with a Crypto error, as
claimed. -/
theorem C4_roundtrip_appends_tag (fk bk bk2 : List Nat) (ctr bn bn2 : Nat)
    (p : List Nat) (hp : ∀ x ∈ p, x < 256) :
    ∃ ct : List Nat,
      Crypto.OnionCrypto.encrypt_forward ⟨fk, bk, ctr, bn⟩ p =
        .ok (ct, ⟨fk, bk, (ctr + 1) % 2 ^ 64, bn⟩) ∧
      ct.length = p.length + 16 ∧
      Crypto.OnionCrypto.decrypt_forward ⟨fk, bk2, ctr, bn2⟩ ct =
        .ok (p ++ ct.drop p.length, ⟨fk, bk2, (ctr + 1) % 2 ^ 64, bn2⟩) ∧
      p ++ ct.drop p.length ≠ p ∧
      ∀ i b : Nat, i < ct.length → b < 256 → b ≠ ct.getD i 0 →
        Crypto.OnionCrypto.decrypt_forward ⟨fk, bk2, ctr, bn2⟩ (ct.set i b) =
          .error .RingError := by
  have hdrop : ((Crypto.aeadSeal fk (Crypto.generate_nonce ctr) p).drop p.length).length =
      16 := by
    rw [List.length_drop, Crypto.aeadSeal_length]
    omega
  refine ⟨Crypto.aeadSeal fk (Crypto.generate_nonce ctr) p, rfl,
    Crypto.aeadSeal_length _ _ _, ?_, ?_, ?_⟩
  · unfold Crypto.OnionCrypto.decrypt_forward
    simp only [Crypto.aeadOpen_aeadSeal, Crypto.aeadSeal_length]
    simp
  · intro hcon
    have hlen := congrArg List.length hcon
    rw [List.length_append, hdrop] at hlen
    omega
  · intro i b hi hb hne
    unfold Crypto.OnionCrypto.decrypt_forward
    simp only [Crypto.aeadOpen_tamper fk (Crypto.generate_nonce ctr) p i b hi hb hp hne]

theorem C4_roundtrip_appends_tag_witness :
    (∀ x ∈ [104, 105, 106], x < 256) ∧
    ∃ ct : List Nat,
      Crypto.OnionCrypto.encrypt_forward ⟨List.replicate 32 7, [], 0, 0⟩ [104, 105, 106] =
        .ok (ct, ⟨List.replicate 32 7, [], (0 + 1) % 2 ^ 64, 0⟩) ∧
      ct.length = ([104, 105, 106] : List Nat).length + 16 ∧
      Crypto.OnionCrypto.decrypt_forward ⟨List.replicate 32 7, [], 0, 0⟩ ct =
        .ok ([104, 105, 106] ++ ct.drop ([104, 105, 106] : List Nat).length,
          ⟨List.replicate 32 7, [], (0 + 1) % 2 ^ 64, 0⟩) ∧
      [104, 105, 106] ++ ct.drop ([104, 105, 106] : List Nat).length ≠ [104, 105, 106] ∧
      ∀ i b : Nat, i < ct.length → b < 256 → b ≠ ct.getD i 0 →
        Crypto.OnionCrypto.decrypt_forward ⟨List.replicate 32 7, [], 0, 0⟩ (ct.set i b) =
          .error .RingError :=
  ⟨by decide,
    C4_roundtrip_appends_tag (List.replicate 32 7) [] [] 0 0 0 [104, 105, 106] (by decide)⟩

/-- C5: the claim demands that a seal or open at a forward counter of
u64::MAX fail with a Resource-kind error; the source performs the unchecked
increment `self.forward_nonce += 1`, so the operation succeeds and the
counter wraps to zero (the following seal reuses nonce zero under the same
key), and the source error type cannot even represent a Resource kind. -/
theorem C5_nonce_wrap_unchecked :
    ((Crypto.OnionCrypto.encrypt_forward
        ⟨List.replicate 32 7, List.replicate 32 8, 2 ^ 64 - 1, 0⟩ [1, 2, 3]).toOption.map
      (fun pr => pr.2.forward_nonce) = some 0) ∧
    (∀ e : Crypto.CryptoError, e = .RingError ∨ ∃ m, e = .NtorError m) := by
  constructor
  · decide
  · intro e
    cases e with
    | RingError => exact Or.inl rfl
    | NtorError m => exact Or.inr ⟨m, rfl⟩

/-- C6 counterexample: the claim keys the exit rule to the final hop of the
circuit, but the source keys it to the absolute hop index 2.  For a 2-hop
circuit, hop 1 is the final hop, and a relay flagged Exit, Fast, Running,
Valid satisfies the claimed predicate yet the source predicate rejects it
(hop index 1 applies the middle rule, which excludes Exit). -/
theorem C6_counterexample :
    Directory.spec_suitable 2 1 Circuit.sampleExit = true ∧
    Directory.is_relay_suitable Circuit.sampleExit 1 = false := by decide

/-- C6 amended: the source suitability predicate is evaluated at absolute
hop positions assuming three-hop circuits; for the hop positions of a
3-hop circuit (0 guard, 1 middle, 2 exit = final) it matches the claimed
per-role predicate exactly, including the global Running, Valid and
BadExit preconditions. -/
theorem C6_suitability_three_hop (r : Directory.RelayDescriptor) (h : Nat)
    (hlt : h < 3) :
    Directory.is_relay_suitable r h = Directory.spec_suitable 3 h r := by
  unfold Directory.is_relay_suitable Directory.spec_suitable
  interval_cases h <;>
    (cases hB : r.flags.contains Directory.RelayFlag.BadExit <;>
     cases hR : r.flags.contains Directory.RelayFlag.Running <;>
     cases hV : r.flags.contains Directory.RelayFlag.Valid <;>
     cases hG : r.flags.contains Directory.RelayFlag.Guard <;>
     cases hF : r.flags.contains Directory.RelayFlag.Fast <;>
     cases hE : r.flags.contains Directory.RelayFlag.Exit <;>
     cases hS : r.flags.contains Directory.RelayFlag.Stable <;>
     cases hM : r.flags.contains Directory.RelayFlag.Middle <;>
     rfl)

theorem C6_suitability_three_hop_witness :
    (1 < 3 ∧
      Directory.is_relay_suitable Circuit.sampleMiddle 1 =
        Directory.spec_suitable 3 1 Circuit.sampleMiddle) :=
  ⟨by decide, C6_suitability_three_hop Circuit.sampleMiddle 1 (by decide)⟩

theorem totalBW_split (relays : List Directory.RelayDescriptor) (k : Nat) :
    Directory.totalBW relays =
      ((relays.take k).map (fun r => r.bandwidth)).sum +
        ((relays.drop k).map (fun r => r.bandwidth)).sum := by
  conv_lhs => rw [Directory.totalBW, ← List.take_append_drop k relays]
  simp

theorem select_weighted_walk_interval (relays : List Directory.RelayDescriptor)
    (draw i : Nat) (hi : i < relays.length)
    (hlo : ((relays.take i).map (fun r => r.bandwidth)).sum ≤ draw)
    (hhi : draw < ((relays.take (i + 1)).map (fun r => r.bandwidth)).sum) :
    Directory.select_weighted_walk draw relays = some relays[i] := by
  induction relays generalizing draw i with
  | nil => simp at hi
  | cons r rs ih =>
    cases i with
    | zero =>
      simp only [List.take_zero, List.map_nil, List.sum_nil] at hlo
      simp only [List.take_succ_cons, List.take_zero, List.map_cons, List.map_nil,
        List.sum_cons, List.sum_nil, Nat.add_zero] at hhi
      simp [Directory.select_weighted_walk, hhi]
    | succ i =>
      have hi' : i < rs.length := by simpa using hi
      simp only [List.take_succ_cons, List.map_cons, List.sum_cons] at hlo hhi
      have hge : r.bandwidth ≤ draw := by omega
      simp only [Directory.select_weighted_walk, if_neg (by omega : ¬draw < r.bandwidth)]
      rw [List.getElem_cons_succ]
      exact ih (draw - r.bandwidth) i hi' (by omega) (by omega)

theorem select_weighted_walk_mem (draw : Nat) (relays : List Directory.RelayDescriptor)
    (r : Directory.RelayDescriptor)
    (h : Directory.select_weighted_walk draw relays = some r) : r ∈ relays := by
  induction relays generalizing draw with
  | nil => simp [Directory.select_weighted_walk] at h
  | cons x xs ih =>
    rw [Directory.select_weighted_walk] at h
    by_cases hc : draw < x.bandwidth
    · rw [if_pos hc] at h
      simp at h
      simp [h]
    · rw [if_neg hc] at h
      exact List.mem_cons_of_mem x (ih _ h)

theorem select_weighted_mem (relays : List Directory.RelayDescriptor)
    (draw uniformIdx : Nat) (hne : relays ≠ [])
    (hu : uniformIdx < relays.length) :
    ∃ r, Directory.select_weighted relays draw uniformIdx = .ok r ∧ r ∈ relays := by
  rw [Directory.select_weighted, if_neg (by simpa [List.isEmpty_iff] using hne)]
  by_cases h0 : Directory.totalBW relays = 0
  · rw [if_pos h0, List.getD_eq_getElem _ _ hu]
    exact ⟨relays[uniformIdx], rfl, List.getElem_mem hu⟩
  · rw [if_neg h0]
    cases hw : Directory.select_weighted_walk draw relays with
    | some r => exact ⟨r, rfl, select_weighted_walk_mem draw relays r hw⟩
    | none =>
      have hlen : 0 < relays.length := List.length_pos.mpr hne
      rw [List.getD_eq_getElem _ _ hlen]
      exact ⟨relays[0], rfl, List.getElem_mem hlen⟩

/-- C7: weighted selection walks the candidate list subtracting successive
bandwidths from the draw and returns the first relay at which the
subtraction would go below zero, so relay i is chosen exactly when the draw
falls in its cumulative-bandwidth interval; a zero bandwidth sum makes the
selection uniform (the uniformly drawn index is returned); and on relays
A(bw 1), B(bw 2), C(bw 3) the draws 0..5 select A, B, B, C, C, C. -/
theorem C7_weighted_selection :
    (∀ (relays : List Directory.RelayDescriptor) (draw uniformIdx i : Nat)
        (hi : i < relays.length),
        ((relays.take i).map (fun r => r.bandwidth)).sum ≤ draw →
        draw < ((relays.take (i + 1)).map (fun r => r.bandwidth)).sum →
        Directory.select_weighted relays draw uniformIdx = .ok relays[i]) ∧
    (∀ (relays : List Directory.RelayDescriptor) (draw uniformIdx : Nat)
        (_h0 : Directory.totalBW relays = 0) (hu : uniformIdx < relays.length),
        Directory.select_weighted relays draw uniformIdx = .ok relays[uniformIdx]) ∧
    (∀ d : Nat, d < 6 →
        Directory.select_weighted [Directory.relayA, Directory.relayB, Directory.relayC] d 0 =
          .ok (if d = 0 then Directory.relayA
            else if d < 3 then Directory.relayB else Directory.relayC)) := by
  refine ⟨?_, ?_, by decide⟩
  · intro relays draw uniformIdx i hi hlo hhi
    have hne : relays ≠ [] := by
      intro hcon
      subst hcon
      simp at hi
    rw [Directory.select_weighted, if_neg (by simpa [List.isEmpty_iff] using hne)]
    have htot : 0 < Directory.totalBW relays := by
      have hsplit := totalBW_split relays (i + 1)
      omega
    rw [if_neg (by omega)]
    rw [select_weighted_walk_interval relays draw i hi hlo hhi]
  · intro relays draw uniformIdx h0 hu
    have hne : relays ≠ [] := by
      intro hcon
      subst hcon
      simp at hu
    rw [Directory.select_weighted, if_neg (by simpa [List.isEmpty_iff] using hne),
      if_pos h0, List.getD_eq_getElem _ _ hu]

theorem C7_weighted_selection_witness :
    Directory.select_weighted [Directory.relayA, Directory.relayB, Directory.relayC] 1 0 =
      .ok Directory.relayB := by
  have h := C7_weighted_selection.1 [Directory.relayA, Directory.relayB, Directory.relayC]
    1 0 1 (by decide) (by decide) (by decide)
  exact h

/-- C8 counterexample: a relay flagged only Running is outside the claimed
relaxed set (Running and Valid and not BadExit), which is empty here, so
the claim requires `select_relay` to fail with NoSuitableRelays; the source
omits the Valid check from its fallback filter and returns the relay. -/
theorem C8_counterexample :
    ([Directory.runningOnlyRelay].filter
        (fun r => Directory.is_relay_suitable r 0) = []) ∧
    Directory.spec_relaxed_set [Directory.runningOnlyRelay] = [] ∧
    Directory.select_relay [Directory.runningOnlyRelay] 0 0 0 =
      .ok Directory.runningOnlyRelay := by decide

/-- C8 amended: when the suitable set for the requested hop is empty, the
selection is relaxed to exactly the set of relays whose flags satisfy
Running and not BadExit (the Valid flag is not required); if that relaxed
set is also empty the call fails with NoSuitableRelays, otherwise a member
of the relaxed set is returned. -/
theorem C8_fallback_running_not_badexit (relays : List Directory.RelayDescriptor)
    (hop draw uniformIdx : Nat)
    (hs : relays.filter (fun r => Directory.is_relay_suitable r hop) = []) :
    (Directory.fallback_set relays = [] →
      Directory.select_relay relays hop draw uniformIdx = .error .NoSuitableRelays) ∧
    (Directory.fallback_set relays ≠ [] →
      uniformIdx < (Directory.fallback_set relays).length →
      ∃ r, Directory.select_relay relays hop draw uniformIdx = .ok r ∧
        r ∈ Directory.fallback_set relays ∧
        r.flags.contains Directory.RelayFlag.Running = true ∧
        r.flags.contains Directory.RelayFlag.BadExit = false) := by
  constructor
  · intro hfb
    rw [Directory.select_relay, hs]
    simp only [List.isEmpty_nil, if_pos]
    rw [hfb]
    simp
  · intro hfb hu
    rw [Directory.select_relay, hs]
    simp only [List.isEmpty_nil, if_pos]
    rw [if_neg (by simpa [List.isEmpty_iff] using hfb)]
    obtain ⟨r, hsel, hmem⟩ := select_weighted_mem (Directory.fallback_set relays)
      draw uniformIdx hfb hu
    refine ⟨r, hsel, hmem, ?_, ?_⟩
    · have := (List.mem_filter.mp hmem).2
      simp only [Bool.and_eq_true, Bool.not_eq_eq_eq_not, Bool.not_true] at this
      exact this.1
    · have := (List.mem_filter.mp hmem).2
      simp only [Bool.and_eq_true, Bool.not_eq_eq_eq_not, Bool.not_true] at this
      simpa using this.2

/-- C10: whenever `parse_relay` accepts an `r` line that is not immediately
followed by an `s` flag line, the resulting descriptor carries the default
flag set Running, Valid — so it passes the Running-and-Valid suitability
preconditions (and the BadExit exclusion) of `is_relay_suitable` even
though the consensus never asserted those flags. -/
theorem C10_default_flags (lines : List String) (i : Nat)
    (r : Directory.RelayDescriptor)
    (hok : Directory.parse_relay lines i = .ok r)
    (hnos : (decide (i + 1 < lines.length) &&
      strStartsWith (strTrim (lines.getD (i + 1) "")) ("s ")) = false) :
    r.flags = [Directory.RelayFlag.Running, Directory.RelayFlag.Valid] ∧
    r.flags.contains Directory.RelayFlag.Running = true ∧
    r.flags.contains Directory.RelayFlag.Valid = true ∧
    r.flags.contains Directory.RelayFlag.BadExit = false := by
  simp only [Directory.parse_relay] at hok
  split at hok
  · exact Except.noConfusion hok
  split at hok
  · exact Except.noConfusion hok
  split at hok
  · exact Except.noConfusion hok
  split at hok
  · exact Except.noConfusion hok
  split at hok
  · exact Except.noConfusion hok
  split at hok
  · exact Except.noConfusion hok
  simp only [Except.ok.injEq] at hok
  subst hok
  refine ⟨?_, ?_, ?_, ?_⟩ <;> rw [hnos] <;> rfl

theorem C10_default_flags_witness :
    (Directory.parse_relay [Directory.sampleRLine, Directory.sampleWLine] 0 =
      .ok Directory.sampleParsedRelay) ∧
    ((decide (0 + 1 < ([Directory.sampleRLine, Directory.sampleWLine] : List String).length) &&
      strStartsWith (strTrim (([Directory.sampleRLine, Directory.sampleWLine] :
        List String).getD (0 + 1) "")) ("s ")) = false) ∧
    (Directory.sampleParsedRelay.flags =
        [Directory.RelayFlag.Running, Directory.RelayFlag.Valid] ∧
      Directory.sampleParsedRelay.flags.contains Directory.RelayFlag.Running = true ∧
      Directory.sampleParsedRelay.flags.contains Directory.RelayFlag.Valid = true ∧
      Directory.sampleParsedRelay.flags.contains Directory.RelayFlag.BadExit = false) :=
  ⟨by decide, by decide,
    C10_default_flags [Directory.sampleRLine, Directory.sampleWLine] 0
      Directory.sampleParsedRelay (by decide) (by decide)⟩

theorem C8_fallback_witness :
    ([Directory.runningOnlyRelay].filter
        (fun r => Directory.is_relay_suitable r 0) = []) ∧
    (Directory.fallback_set [Directory.runningOnlyRelay] ≠ [] ∧
      ∃ r, Directory.select_relay [Directory.runningOnlyRelay] 0 0 0 = .ok r ∧
        r ∈ Directory.fallback_set [Directory.runningOnlyRelay] ∧
        r.flags.contains Directory.RelayFlag.Running = true ∧
        r.flags.contains Directory.RelayFlag.BadExit = false) :=
  ⟨by decide,
    ⟨by decide,
      (C8_fallback_running_not_badexit [Directory.runningOnlyRelay] 0 0 0 (by decide)).2
        (by decide) (by decide)⟩⟩

theorem selectHopsAux_shape (sel : Nat → Except Directory.DirectoryError Directory.RelayDescriptor)
    (fresh : Nat → Crypto.OnionCrypto) (hop_num remaining : Nat)
    (hops : List Circuit.RelayHop)
    (h : Circuit.selectHopsAux sel fresh hop_num remaining = .ok hops) :
    hops.length = remaining ∧ ∀ hp ∈ hops, hp.handshaked = false := by
  induction remaining generalizing hop_num hops with
  | zero =>
    rw [Circuit.selectHopsAux] at h
    simp only [Except.ok.injEq] at h
    subst h
    simp
  | succ remaining ih =>
    rw [Circuit.selectHopsAux] at h
    split at h
    · exact Except.noConfusion h
    split at h
    · exact Except.noConfusion h
    rename_i relay _ hops' heq
    simp only [Except.ok.injEq] at h
    subst h
    obtain ⟨hlen, hall⟩ := ih (hop_num + 1) hops' heq
    constructor
    · simp [hlen]
    · intro hp hmem
      rcases List.mem_cons.mp hmem with hx | hx
      · subst hx; rfl
      · exact hall hp hx

theorem perform_handshakes_ok_shape (c : Circuit.Circuit) (priv : List Nat)
    (net : Circuit.NetOracle) (c2 : Circuit.Circuit)
    (h : Circuit.perform_handshakes c priv net = .ok c2) :
    c2.id = c.id ∧ c2.state = c.state ∧
    ∃ hop hop2 rest, c.hops = hop :: rest ∧
      c2.hops = hop2 :: rest ∧ hop2.handshaked = true := by
  simp only [Circuit.perform_handshakes] at h
  split at h
  · exact Circuit.Outcome.noConfusion h
  rename_i hop rest heq
  split at h
  · exact Circuit.Outcome.noConfusion h
  split at h
  · exact Circuit.Outcome.noConfusion h
  split at h
  · exact Circuit.Outcome.noConfusion h
  split at h
  · exact Circuit.Outcome.noConfusion h
  split at h
  · exact Circuit.Outcome.noConfusion h
  split at h
  · exact Circuit.Outcome.noConfusion h
  split at h
  · exact Circuit.Outcome.noConfusion h
  split at h
  · exact Circuit.Outcome.noConfusion h
  simp only [Circuit.Outcome.ok.injEq] at h
  subst h
  exact ⟨rfl, rfl, hop, _, rest, heq, rfl, rfl⟩

theorem lookupCircuit_insert (st : Circuit.CircuitManagerState) (id : Nat)
    (c : Circuit.Circuit) :
    Circuit.lookupCircuit (Circuit.insertCircuit st id c) id = some c := by
  simp [Circuit.lookupCircuit, Circuit.insertCircuit, List.find?]

/-- C1 counterexample: with three suitable relays and a relay answering the
single CREATE2 with a well-formed CREATED2 whose tag matches,
`create_circuit` returns the id and the stored circuit is Ready, yet only
hop 0 ever completed a handshake — hops 1 and 2 were never contacted
(ghost field `handshaked` is false), refuting the claim that Ready implies
every hop completed the handshake. -/
theorem C1_counterexample :
    (let res := Circuit.create_circuit Circuit.CircuitManagerState.init 3
        Circuit.sampleSelect Circuit.sampleFresh Circuit.samplePriv Circuit.okNet
     res.2 = .ok 1 ∧
      (Circuit.lookupCircuit res.1 1).map
          (fun c => (c.state, c.hops.map Circuit.RelayHop.handshaked)) =
        some (.Ready, [true, false, false])) := by decide

/-- C1 amended: a circuit id is returned exactly when the stored circuit
reaches Ready, and Ready is reached after hop 0 alone completed the
CREATE2/CREATED2 ntor handshake with a matching authentication tag; the
source handshakes only with the first hop ("For now, we only handle the
first hop"), so every hop beyond the first has never performed a
handshake when the circuit becomes Ready. -/
theorem C1_ready_after_first_hop_only (st : Circuit.CircuitManagerState)
    (num_hops : Nat)
    (sel : Nat → Except Directory.DirectoryError Directory.RelayDescriptor)
    (fresh : Nat → Crypto.OnionCrypto) (priv : List Nat) (net : Circuit.NetOracle)
    (st2 : Circuit.CircuitManagerState) (cid : Nat)
    (h : Circuit.create_circuit st num_hops sel fresh priv net = (st2, .ok cid)) :
    ∃ c, Circuit.lookupCircuit st2 cid = some c ∧
      c.state = .Ready ∧ c.hops.length = num_hops ∧
      (∀ hp ∈ c.hops.take 1, hp.handshaked = true) ∧
      (∀ hp ∈ c.hops.drop 1, hp.handshaked = false) := by
  simp only [Circuit.create_circuit] at h
  split at h
  · simp at h
  rename_i hops heqsel
  split at h
  · simp at h
  · simp at h
  rename_i c2 heqph
  simp only [Prod.mk.injEq, Circuit.Outcome.ok.injEq] at h
  obtain ⟨hst2, hcid⟩ := h
  subst hst2
  subst hcid
  obtain ⟨_, _, hop, hop2, rest, hhops, hc2hops, hhs2⟩ :=
    perform_handshakes_ok_shape _ priv net c2 heqph
  have hhops' : hops = hop :: rest := hhops
  obtain ⟨hlen, hall⟩ := selectHopsAux_shape sel fresh 0 num_hops hops heqsel
  refine ⟨{ c2 with state := .Ready }, lookupCircuit_insert _ _ _, rfl, ?_, ?_, ?_⟩
  · show c2.hops.length = num_hops
    rw [hc2hops]
    rw [hhops'] at hlen
    simpa using hlen
  · show ∀ hp ∈ c2.hops.take 1, hp.handshaked = true
    rw [hc2hops]
    intro hp hmem
    simp at hmem
    subst hmem
    exact hhs2
  · show ∀ hp ∈ c2.hops.drop 1, hp.handshaked = false
    rw [hc2hops]
    intro hp hmem
    simp only [List.drop_succ_cons, List.drop_zero] at hmem
    exact hall hp (by rw [hhops']; exact List.mem_cons_of_mem _ hmem)

theorem C1_ready_after_first_hop_only_witness :
    ∃ c, Circuit.lookupCircuit
        (Circuit.create_circuit Circuit.CircuitManagerState.init 3 Circuit.sampleSelect
          Circuit.sampleFresh Circuit.samplePriv Circuit.okNet).1 1 = some c ∧
      c.state = .Ready ∧ c.hops.length = 3 ∧
      (∀ hp ∈ c.hops.take 1, hp.handshaked = true) ∧
      (∀ hp ∈ c.hops.drop 1, hp.handshaked = false) :=
  C1_ready_after_first_hop_only Circuit.CircuitManagerState.init 3 Circuit.sampleSelect
    Circuit.sampleFresh Circuit.samplePriv Circuit.okNet _ 1 (by decide)

/-- C2 counterexample: on an authentication-tag mismatch `create_circuit`
does return HandshakeFailed, but the stored circuit remains in state
Building — it is never marked Error(reason) as the claim demands; and when
the relay is unreachable the propagated error is Io, not HandshakeFailed. -/
theorem C2_counterexample :
    (let resA := Circuit.create_circuit Circuit.CircuitManagerState.init 3
        Circuit.sampleSelect Circuit.sampleFresh Circuit.samplePriv Circuit.badAuthNet
     resA.2 = .err (.HandshakeFailed ("Invalid auth value from relay")) ∧
      (Circuit.lookupCircuit resA.1 1).map (fun c => c.state) = some .Building) ∧
    (let resB := Circuit.create_circuit Circuit.CircuitManagerState.init 3
        Circuit.sampleSelect Circuit.sampleFresh Circuit.samplePriv Circuit.refusedNet
     resB.2 = .err (.Io ("connection refused")) ∧
      (Circuit.lookupCircuit resB.1 1).map (fun c => c.state) = some .Building) := by
  decide

/-- C2 amended: when any step of circuit creation fails, the error is
propagated to the caller unchanged (HandshakeFailed for an invalid or
wrong-tag CREATED2 response, Io for an unreachable relay), and the circuit
stored in the map — inserted in state Building before the handshake —
remains in state Building: no error path ever marks it Error(reason). -/
theorem C2_failure_leaves_building (st : Circuit.CircuitManagerState)
    (num_hops : Nat)
    (sel : Nat → Except Directory.DirectoryError Directory.RelayDescriptor)
    (fresh : Nat → Crypto.OnionCrypto) (priv : List Nat) (net : Circuit.NetOracle)
    (st2 : Circuit.CircuitManagerState) (e : Circuit.CircuitError)
    (hfresh : Circuit.lookupCircuit st st.next_circuit_id = none)
    (h : Circuit.create_circuit st num_hops sel fresh priv net = (st2, .err e)) :
    ∀ c, Circuit.lookupCircuit st2 st.next_circuit_id = some c →
      c.state = .Building := by
  simp only [Circuit.create_circuit] at h
  split at h
  · simp only [Prod.mk.injEq, Circuit.Outcome.err.injEq] at h
    obtain ⟨hst2, _⟩ := h
    subst hst2
    intro c hc
    have hc' : Circuit.lookupCircuit st st.next_circuit_id = some c := hc
    rw [hfresh] at hc'
    exact Option.noConfusion hc'
  rename_i hops heqsel
  split at h
  · simp at h
  · rename_i e' heqph
    simp only [Prod.mk.injEq, Circuit.Outcome.err.injEq] at h
    obtain ⟨hst2, _⟩ := h
    subst hst2
    intro c hc
    rw [lookupCircuit_insert] at hc
    simp only [Option.some.injEq] at hc
    rw [← hc]
  · simp at h

theorem C2_failure_leaves_building_witness :
    (Circuit.lookupCircuit
        (Circuit.create_circuit Circuit.CircuitManagerState.init 3 Circuit.sampleSelect
          Circuit.sampleFresh Circuit.samplePriv Circuit.badAuthNet).1 1).map
      (fun c => c.state) = some Circuit.CircuitState.Building := by
  have happ := C2_failure_leaves_building Circuit.CircuitManagerState.init 3
    Circuit.sampleSelect Circuit.sampleFresh Circuit.samplePriv Circuit.badAuthNet
    (Circuit.create_circuit Circuit.CircuitManagerState.init 3 Circuit.sampleSelect
      Circuit.sampleFresh Circuit.samplePriv Circuit.badAuthNet).1
    (.HandshakeFailed ("Invalid auth value from relay")) (by decide) (by decide)
  cases hl : Circuit.lookupCircuit
      (Circuit.create_circuit Circuit.CircuitManagerState.init 3 Circuit.sampleSelect
        Circuit.sampleFresh Circuit.samplePriv Circuit.badAuthNet).1 1 with
  | none => exact absurd hl (by decide)
  | some c =>
    simp only [Option.map_some']
    rw [happ c hl]

theorem read_exact_append (pre post : List Nat) (w : List (List Nat)) :
    Socks5.read_exact { input := pre ++ post, writes := w } pre.length =
      .ok (pre, { input := post, writes := w }) := by
  rw [Socks5.read_exact, if_neg (by rw [List.length_append]; omega)]
  rw [List.take_left, List.drop_left]

theorem proxy_handshake_run (M tail : List Nat) (w : List (List Nat)) :
    Socks5.proxy_handshake { input := 5 :: M.length :: (M ++ tail), writes := w } =
      ({ input := tail, writes := w ++ [[5, 0]] }, .ok ()) := by
  have h2 : Socks5.read_exact { input := 5 :: M.length :: (M ++ tail), writes := w } 2 =
      .ok ([5, M.length], { input := M ++ tail, writes := w }) := by
    rw [Socks5.read_exact, if_neg (by simp only [List.length_cons]; omega)]
    rfl
  rw [Socks5.proxy_handshake]
  simp only [h2, List.getD_cons_zero, List.getD_cons_succ, ne_eq, not_true_eq_false,
    if_false, read_exact_append]
  simp [Socks5.write_all]

theorem parse_request_unsupported (cmd rsv atyp : Nat) (rest : List Nat)
    (w : List (List Nat)) (hcmd : cmd ≠ 1) :
    Socks5.parse_request { input := 5 :: cmd :: rsv :: atyp :: rest, writes := w } =
      ({ input := rest, writes := w },
        .error (.Unsupported ("Command " ++ natRepr cmd ++ " not supported"))) := by
  have h4 : Socks5.read_exact { input := 5 :: cmd :: rsv :: atyp :: rest, writes := w } 4 =
      .ok ([5, cmd, rsv, atyp], { input := rest, writes := w }) := by
    rw [Socks5.read_exact, if_neg (by simp only [List.length_cons]; omega)]
    rfl
  rw [Socks5.parse_request]
  simp only [h4, List.getD_cons_zero, List.getD_cons_succ, ne_eq, not_true_eq_false,
    if_false]
  rw [if_pos hcmd]

/-- C9 counterexample: a syntactically well-formed SOCKS5 session offering
the BIND command (2) ends with the proxy writing only the method-selection
reply `05 00`; the claimed reply with code 7 (command not supported) is
never sent — `parse_request` fails with Unsupported and `handle_client`
propagates the error, closing the connection silently. -/
theorem C9_counterexample :
    (let res := Socks5.handle_client
        { input := [5, 1, 0, 5, 2, 0, 1, 1, 2, 3, 4, 0, 80], writes := [] }
        (.error .NoSuitableRelays)
     res.1.writes = [[5, 0]] ∧
      res.2 = .error (.Unsupported ("Command 2 not supported")) ∧
      Socks5.replyBytes 7 ∉ res.1.writes) := by decide

/-- C9 amended: for every well-formed SOCKS5 request whose command byte is
not 1 (CONNECT), `parse_request` fails with Unsupported, and the proxy
closes the connection without writing any SOCKS5 reply at all — the only
bytes ever written are the method-selection reply `05 00` (in particular no
reply code 7 is sent). -/
theorem C9_unsupported_closes_without_reply (methods rest : List Nat)
    (cmd rsv atyp : Nat) (circuitResult : Except Circuit.CircuitError Nat)
    (hcmd : cmd ≠ 1) (_hmeth : methods.length < 256) :
    Socks5.handle_client
      { input := 5 :: methods.length :: (methods ++ (5 :: cmd :: rsv :: atyp :: rest)),
        writes := [] } circuitResult =
      ({ input := rest, writes := [[5, 0]] },
        .error (.Unsupported ("Command " ++ natRepr cmd ++ " not supported"))) := by
  rw [Socks5.handle_client]
  simp only [proxy_handshake_run methods (5 :: cmd :: rsv :: atyp :: rest) []]
  simp only [List.nil_append]
  rw [parse_request_unsupported cmd rsv atyp rest [[5, 0]] hcmd]

theorem C9_unsupported_closes_without_reply_witness :
    (2 ≠ 1 ∧ ([0] : List Nat).length < 256) ∧
    Socks5.handle_client
      { input := 5 :: ([0] : List Nat).length :: ([0] ++ (5 :: 2 :: 0 :: 1 :: [1, 2, 3, 4, 0, 80])),
        writes := [] } (.error .NoSuitableRelays) =
      ({ input := [1, 2, 3, 4, 0, 80], writes := [[5, 0]] },
        .error (.Unsupported ("Command " ++ natRepr 2 ++ " not supported"))) :=
  ⟨⟨by decide, by decide⟩,
    C9_unsupported_closes_without_reply [0] [1, 2, 3, 4, 0, 80] 2 0 1
      (.error .NoSuitableRelays) (by decide) (by decide)⟩

end ShadowCircuit
